import Mathlib

/-!
Verification of the data aggregation and normalization pipeline of
`ucl-api.js` (the social-ai repository).

The JavaScript source is shallowly embedded as executable Lean definitions:

* JSON fields that may be absent are `Option`s; fields whose absence *and*
  malformed presence are both observable (because the code calls an array or
  string method on them) are wrapped in `JsField`, which also records the JS
  truthiness of a wrongly-shaped value.
* JS string truthiness (`""` is falsy, every other string truthy) is modelled
  by `optTruthy`.
* Code that can throw a `TypeError`/`RangeError` is modelled in
  `Except String`; pure code stays pure.
* `[...new Set(urls)]` is modelled by `jsSetDedup` (first occurrence wins),
  implemented exactly as JS `Set` insertion: keep an element iff it has not
  been seen before.
* `Array.prototype.sort` with a consistent comparator is a stable sort; it is
  modelled by `List.mergeSort` with `le a b := compare a b ≤ 0`.
* `endDate.dateTime` of a native grant is an ISO date string that the sort
  comparator turns into an epoch-milliseconds number via `new Date(...)`; the
  embedding carries the parsed number directly (`Option Int`; `none` when the
  field is absent or falsy).
-/

namespace SocialAI

/-- A JSON field as seen by the JS code: absent (`missing`), present but not
of the shape the code expects (`bad`, recording only the JS truthiness of the
value), or present with the expected shape (`val`). -/
inductive JsField (α : Type) where
  | missing : JsField α
  | bad : Bool → JsField α
  | val : α → JsField α
deriving DecidableEq

/-- JS string truthiness: collapse an absent or empty-string field to `none`.
Mirrors patterns like `if (pub.publicUrl) { ... }` and `x?.url || null`. -/
def optTruthy : Option String → Option String
  | some s => if s = "" then none else some s
  | none => none

/-- `f || []` followed by an array-method call (`.map`, `.find`, …):
an absent or falsy field defaults to `[]`; a truthy wrongly-shaped value has
no such method and the call throws a `TypeError`. -/
def jsArr {α : Type} : JsField (List α) → Except String (List α)
  | .missing => .ok []
  | .bad true => .error "TypeError: not a function"
  | .bad false => .ok []
  | .val l => .ok l

/-- Auxiliary for `jsSetDedup`: `seen` is the set of values already inserted.
Mirrors JS `Set` insertion order semantics. -/
def dedupAux (seen : List String) : List String → List String
  | [] => []
  | x :: xs =>
    if x ∈ seen then dedupAux seen xs
    else x :: dedupAux (x :: seen) xs

/-- `[...new Set(urls)]`: remove duplicates, keeping the first occurrence of
each string, preserving order otherwise. -/
def jsSetDedup (l : List String) : List String := dedupAux [] l

/-! ### `capitalizeWords` (ucl-api.js lines 8-12)

`str.toLowerCase().replace(/(^|[\s-])\w/g, c => c.toUpperCase())`.
The regex uppercases every `\w` character that stands at the start of the
string or right after a whitespace or hyphen (the consumed separator is
unchanged by `toUpperCase`).  Matches cannot overlap in a way that changes
this characterisation because `\w` and `[\s-]` are disjoint, so the
embedding works character by character.  Case mapping is modelled with
`Char.toLower`/`Char.toUpper`, exact on ASCII. -/

/-- JS `\w`: ASCII letters, digits and underscore. -/
def isWordChar (c : Char) : Bool := c.isAlpha || c.isDigit || c = '_'

/-- JS `[\s-]` (separator class of the regex): ASCII whitespace or hyphen.
(The full JS `\s` also contains some Unicode spaces, outside this model.) -/
def isSepChar (c : Char) : Bool :=
  c = ' ' || (9 ≤ c.toNat && c.toNat ≤ 13) || c = '-'

/-- One pass over the lowercased characters; `atStart` is true at position 0
and after a separator character. -/
def capChars (atStart : Bool) : List Char → List Char
  | [] => []
  | c :: cs =>
    let lc := c.toLower
    (if atStart && isWordChar lc then lc.toUpper else lc)
      :: capChars (isSepChar lc) cs

/-- `capitalizeWords` from ucl-api.js: `if (!str) return ''` (a string is
falsy exactly when empty), then lowercase everything and uppercase the first
`\w` character of every word and hyphen-segment. -/
def capitalizeWords (s : String) : String :=
  if s = "" then "" else ⟨capChars true s.data⟩

/-! ### Publications (ucl-api.js lines 249-282) -/

/-- An entry of a publication's `files` array. -/
structure FileRec where
  url : Option String
deriving DecidableEq

/-- An entry of a publication's `links` array. -/
structure LinkRec where
  url : Option String
deriving DecidableEq

/-- A raw publication record, restricted to the fields the URL collection
reads.  `files`/`links` are `none` when absent or not an array (the code
guards both with `Array.isArray`, so a malformed value is skipped exactly
like an absent one).  All other fields of the record are passed through
untouched and are not modelled. -/
structure RawPublication where
  publicUrl : Option String
  doi : Option String
  files : Option (List FileRec)
  links : Option (List LinkRec)
deriving DecidableEq

/-- The `urls` array built for one publication, in source order: the direct
public URL (if truthy), then `https://doi.org/<doi>` (if `doi` truthy), then
every truthy `files[i].url`, then every truthy `links[i].url`. -/
def collectUrls (p : RawPublication) : List String :=
  (match optTruthy p.publicUrl with
   | some u => [u]
   | none => []) ++
  (match optTruthy p.doi with
   | some d => ["https://doi.org/" ++ d]
   | none => []) ++
  (match p.files with
   | some fs => fs.filterMap (fun f => optTruthy f.url)
   | none => []) ++
  (match p.links with
   | some ls => ls.filterMap (fun l => optTruthy l.url)
   | none => [])

/-- `pub.publicUrls = [...new Set(urls)]`. -/
def mkPublicUrls (p : RawPublication) : List String :=
  jsSetDedup (collectUrls p)

/-! ### Grants (ucl-api.js lines 284-307) -/

/-- A grant's structured date, `{ dateTime, year }`.  `dateTime` is carried
as the epoch-milliseconds value `new Date(dateTime)` parses it to; `none`
models an absent or falsy (empty-string) `dateTime`.  `year` is passed
through and never read by this pipeline. -/
structure GrantDate where
  dateTime : Option Int
  year : Option Int
deriving DecidableEq

/-- A raw grant record, restricted to the fields normalization and sorting
read.  `publicUrls = none` models an absent (or null, hence falsy) field;
`some l` a present array, which is always truthy in JS even when empty. -/
structure RawGrant where
  publicUrl : Option String
  publicUrls : Option (List String)
  endDate : Option GrantDate
deriving DecidableEq

/-- A normalized grant: `publicUrls` is always present. -/
structure NormGrant where
  publicUrl : Option String
  publicUrls : List String
  endDate : Option GrantDate
deriving DecidableEq

/-- The normalization step of the grants map (lines 284-294):
`if (grant.publicUrl && !grant.publicUrls) publicUrls = [publicUrl];
else if (!grant.publicUrls) publicUrls = [];` — all other fields are kept. -/
def normalizeGrant (g : RawGrant) : NormGrant :=
  match g.publicUrls with
  | some us => { publicUrl := g.publicUrl, publicUrls := us, endDate := g.endDate }
  | none =>
    match optTruthy g.publicUrl with
    | some u => { publicUrl := g.publicUrl, publicUrls := [u], endDate := g.endDate }
    | none => { publicUrl := g.publicUrl, publicUrls := [], endDate := g.endDate }

/-- The sort key: `a.endDate?.dateTime ? new Date(a.endDate.dateTime) : null`. -/
def endKey (g : NormGrant) : Option Int :=
  match g.endDate with
  | some d => d.dateTime
  | none => none

/-- The comparator of lines 298-307 as an integer-valued function. -/
def grantCompare (a b : NormGrant) : Int :=
  match endKey a, endKey b with
  | none, none => 0
  | none, some _ => 1
  | some _, none => -1
  | some x, some y => y - x

/-- `a` may precede `b` under the comparator (comparator value `≤ 0`). -/
def grantLE (a b : NormGrant) : Bool := grantCompare a b ≤ 0

/-- `grants.sort(comparator)`: JS `Array.prototype.sort` is a stable sort,
and with the consistent comparator above it produces the stable
`le`-ordering, modelled by `List.mergeSort`. -/
def sortGrants (gs : List NormGrant) : List NormGrant :=
  gs.mergeSort grantLE

/-! ### Profile section and the whole merge (ucl-api.js lines 226-317) -/

/-- An entry of `profileApiData.personalWebsites`. -/
structure PersonalWebsite where
  typeDisplayName : Option String
  url : Option String
deriving DecidableEq

/-- An entry of `profileApiData.positions`. -/
structure PositionRec where
  position : Option String
  department : Option String
deriving DecidableEq

/-- A tab summary record (`htmlStripped` field). -/
structure TabSummary where
  htmlStripped : Option String
deriving DecidableEq

/-- `profileApiData.orcid` (`value`/`uri`). -/
structure OrcidRef where
  value : Option String
  uri : Option String
deriving DecidableEq

/-- `profileApiData.tags` (`explicit` list). -/
structure TagsRec where
  explicit : Option (List String)
deriving DecidableEq

/-- The raw profile record, restricted to the fields the merge reads.
`firstNameLastName` and `personalWebsites` are `JsField`s because the code
calls a method on them (`toLowerCase` inside `capitalizeWords`, `.find`), so
a truthy wrongly-shaped value throws; every other field is only reached
through optional chaining or `||` and behaves like `Option`. -/
structure RawProfile where
  firstNameLastName : JsField String
  title : Option String
  positions : Option (List PositionRec)
  personalWebsites : JsField (List PersonalWebsite)
  tabSummaryTeachingActivities : Option TabSummary
  tags : Option TagsRec
  tabSummaryGrants : Option TabSummary
  discoveryUrlId : Option String
  elementsUserProfileUrl : Option String
  orcid : Option OrcidRef
deriving DecidableEq

/-- The publications envelope: `{ resource: [...] }`. -/
structure RawPublications where
  resource : JsField (List RawPublication)
deriving DecidableEq

/-- The grants envelope: `{ resource: [...] }`. -/
structure RawGrantsData where
  resource : JsField (List RawGrant)
deriving DecidableEq

/-- The teaching envelope; records are opaque payloads passed through. -/
structure RawTeaching where
  resource : Option (List String)
deriving DecidableEq

/-- The `meta` record of the output profile. -/
structure ProfileMeta where
  discoveryUrlId : Option String
  profileURL : Option String
  orcid : Option String
  orcid_uri : Option String
  linked_in : Option String
  twitter : Option String
deriving DecidableEq

/-- The output `profile` section (`prefixTitle` embeds the source field
named `prefix`, which is not a usable identifier in Lean). -/
structure ProfileOut where
  name : String
  prefixTitle : String
  title : String
  affiliation : String
  education_info : String
  research_interests : List String
  research_info : String
  meta : ProfileMeta
deriving DecidableEq

/-- The final structured document. Each output publication is the raw record
(whose other fields pass through unmodelled) paired with its computed
`publicUrls`. -/
structure ProfileDocument where
  profile : ProfileOut
  publications : List (RawPublication × List String)
  grants : List NormGrant
  teaching : List String
deriving DecidableEq

/-- `capitalizeWords(profileApiData.firstNameLastName)`: absent or falsy
input hits the `if (!str) return ''` guard; a truthy non-string has no
`toLowerCase` and throws. -/
def capWordsField : JsField String → Except String String
  | .missing => .ok ""
  | .bad false => .ok ""
  | .bad true => .error "TypeError: str.toLowerCase is not a function"
  | .val s => .ok (capitalizeWords s)

/-- `x?.url || null` on the result of a `find`: a missing site, a missing
`url` and an empty-string `url` all yield `null`. -/
def siteUrl (w : Option PersonalWebsite) : Option String :=
  match w with
  | some site => optTruthy site.url
  | none => none

/-- `transformApiData` (ucl-api.js lines 226-317), in JS evaluation order:
the `personalWebsites` lookup runs first, then the profile literal (whose
`name` may throw), then the publications map, the grants map and sort, and
the teaching passthrough.  The result is `Except` because an unexpected
truthy shape at `personalWebsites`, `firstNameLastName` or a `resource`
throws a `TypeError` in JS. -/
def transformApiData (profileApiData : RawProfile) (pubsApiData : RawPublications)
    (teachingApiData : RawTeaching) (grantsApiData : RawGrantsData) :
    Except String ProfileDocument := do
  let personalWebsites ← jsArr profileApiData.personalWebsites
  let linkedInUrl := siteUrl
    (personalWebsites.find? (fun site => site.typeDisplayName == some "LinkedIn"))
  let twitterUrl := siteUrl
    (personalWebsites.find? (fun site => site.typeDisplayName == some "X (Twitter)"))
  let name ← capWordsField profileApiData.firstNameLastName
  let profile : ProfileOut := {
    name := name
    prefixTitle := (optTruthy profileApiData.title).getD ""
    title := (optTruthy ((profileApiData.positions.getD []).head?.bind
      (fun p => p.position))).getD ""
    affiliation := (optTruthy ((profileApiData.positions.getD []).head?.bind
      (fun p => p.department))).getD ""
    education_info := (optTruthy (profileApiData.tabSummaryTeachingActivities.bind
      (fun t => t.htmlStripped))).getD ""
    research_interests := ((profileApiData.tags.bind (fun t => t.explicit)).getD [])
    research_info := (optTruthy (profileApiData.tabSummaryGrants.bind
      (fun t => t.htmlStripped))).getD ""
    meta := {
      discoveryUrlId := profileApiData.discoveryUrlId
      profileURL := profileApiData.elementsUserProfileUrl
      orcid := optTruthy (profileApiData.orcid.bind (fun o => o.value))
      orcid_uri := optTruthy (profileApiData.orcid.bind (fun o => o.uri))
      linked_in := linkedInUrl
      twitter := twitterUrl } }
  let pubsArr ← jsArr pubsApiData.resource
  let publications := pubsArr.map (fun pub => (pub, mkPublicUrls pub))
  let grantsArr ← jsArr grantsApiData.resource
  let grants := sortGrants (grantsArr.map normalizeGrant)
  let teaching := teachingApiData.resource.getD []
  return { profile := profile, publications := publications,
           grants := grants, teaching := teaching }

/-! ### ORCID funding adapter (ucl-api.js lines 119-196)

Dates: `constructDate` builds `` `${year}-${month}-${day}` `` with the month
and day segments two-digit padded (default `'01'`) and parses it with
`new Date(...).toISOString()`.  A four-digit year with valid month and day is
an ISO date-only string, which JS parses as *UTC* midnight, so
`toISOString()` returns `"YYYY-MM-DDT00:00:00.000Z"`; with the deployment
default timezone (UTC) this is also local midnight.  Out-of-range components
give an Invalid Date whose `toISOString()` throws a `RangeError`; years
outside 1000..9999 produce a non-ISO string whose parsing is
engine-specific, conservatively modelled as an error here — every theorem
below stays inside the four-digit-year, valid-month/day domain.
Date component values are modelled by their numeric content (JS truthiness
of the value becomes `≠ 0`). -/

/-- An ORCID `{value: ...}` date component. -/
structure DatePart where
  value : Nat
deriving DecidableEq

/-- An ORCID partial date `{year?, month?, day?}`, each a `DatePart`. -/
structure OrcidDate where
  year : Option DatePart
  month : Option DatePart
  day : Option DatePart
deriving DecidableEq

/-- The produced UCL-style date `{ dateTime, year }`. -/
structure UclDate where
  dateTime : String
  year : Nat
deriving DecidableEq

/-- Left-pad the decimal representation to two digits (`String.padStart(2, '0')`). -/
def pad2 (n : Nat) : String :=
  if n < 10 then "0" ++ toString n else toString n

/-- Days in a month, with leap years (what JS date parsing validates). -/
def daysInMonth (y m : Nat) : Nat :=
  if m = 2 then
    if y % 4 = 0 && (y % 100 ≠ 0 || y % 400 = 0) then 29 else 28
  else if m = 4 || m = 6 || m = 9 || m = 11 then 30
  else 31

/-- The components form a four-digit-year ISO date-only string that JS parses
to a valid date. -/
def isoValid (y m d : Nat) : Bool :=
  1000 ≤ y && y ≤ 9999 && 1 ≤ m && m ≤ 12 && 1 ≤ d && d ≤ daysInMonth y m

/-- `new Date("YYYY-MM-DD").toISOString()` for a valid date-only string:
UTC midnight of that calendar day. -/
def isoMidnight (y m d : Nat) : String :=
  toString y ++ "-" ++ pad2 m ++ "-" ++ pad2 d ++ "T00:00:00.000Z"

/-- The month (resp. day) segment's numeric content:
`dateObj.month ? String(dateObj.month.value).padStart(2, '0') : '01'`. -/
def partOr1 (p : Option DatePart) : Nat :=
  match p with
  | some v => v.value
  | none => 1

/-- `constructDate` (ucl-api.js lines 129-138). -/
def constructDate (dateObj : Option OrcidDate) : Except String (Option UclDate) :=
  match dateObj with
  | none => .ok none
  | some d =>
    match d.year with
    | none => .ok none
    | some yv =>
      if yv.value = 0 then .ok none
      else
        let y := yv.value
        let m := partOr1 d.month
        let dy := partOr1 d.day
        if isoValid y m dy then
          .ok (some { dateTime := isoMidnight y m dy, year := y })
        else .error "RangeError: Invalid time value"

/-- An ORCID `{value: ...}` string holder (e.g. `funding.url`). -/
structure ValueHolder where
  value : Option String
deriving DecidableEq

/-- `funding.title` (`{title: {value: ...}}`). -/
structure TitleHolder where
  title : Option ValueHolder
deriving DecidableEq

/-- `funding.organization`. -/
structure Organization where
  name : Option String
deriving DecidableEq

/-- One entry of `funding['external-ids']['external-id']`;
`externalIdUrl` embeds the source field `'external-id-url'`. -/
structure ExternalId where
  externalIdUrl : Option ValueHolder
deriving DecidableEq

/-- `funding['external-ids']` (`{'external-id': [...]}`);
`externalId` embeds the source field `'external-id'`. -/
structure ExternalIds where
  externalId : Option (List ExternalId)
deriving DecidableEq

/-- One ORCID funding summary, restricted to the fields the transform reads.
`startDate`/`endDate` embed `'start-date'`/`'end-date'`. -/
structure OrcidFunding where
  title : Option TitleHolder
  organization : Option Organization
  startDate : Option OrcidDate
  endDate : Option OrcidDate
  url : Option ValueHolder
  externalIds : Option ExternalIds
deriving DecidableEq

/-- A grant produced by the ORCID transform (already in normalized shape). -/
structure OrcidGrant where
  title : String
  fundingBody : String
  startDate : Option UclDate
  endDate : Option UclDate
  publicUrls : List String
deriving DecidableEq

/-- `funding.title?.title?.value` with JS truthiness. -/
def titleChain (f : OrcidFunding) : Option String :=
  optTruthy ((f.title.bind (fun t => t.title)).bind (fun v => v.value))

/-- `funding.organization?.name` with JS truthiness. -/
def orgName (f : OrcidFunding) : Option String :=
  optTruthy (f.organization.bind (fun o => o.name))

/-- The `urls` array collected from one funding summary:
`funding.url?.value` if truthy, then every truthy
`id['external-id-url']?.value` of `funding['external-ids']?.['external-id'] || []`. -/
def fundingUrls (f : OrcidFunding) : List String :=
  (match optTruthy (f.url.bind (fun u => u.value)) with
   | some u => [u]
   | none => []) ++
  ((f.externalIds.bind (fun e => e.externalId)).getD []).filterMap
    (fun i => optTruthy (i.externalIdUrl.bind (fun u => u.value)))

/-- The body of the `map` in `transformOrcidFundingToUclGrants`
(ucl-api.js lines 124-161) applied to one present funding summary. -/
def transformOneFunding (f : OrcidFunding) : Except String OrcidGrant := do
  let sd ← constructDate f.startDate
  let ed ← constructDate f.endDate
  return {
    title := (titleChain f).getD "No Title Available"
    fundingBody := (orgName f).getD "Funder Not Available"
    startDate := sd
    endDate := ed
    publicUrls := jsSetDedup (fundingUrls f) }

/-- The body of `orcidFundingArray.map(funding => ...)` applied to one JS
array element, which may be `undefined` (`none`) — `flatMap` in the caller
inserts `undefined` for a group without a `funding-summary` field, and
`funding['start-date']` on `undefined` throws. -/
def mapOneSummary : Option OrcidFunding → Except String OrcidGrant
  | none => .error "TypeError: Cannot read properties of undefined"
  | some funding => transformOneFunding funding

/-- `transformOrcidFundingToUclGrants` (ucl-api.js lines 119-162).
A missing, falsy or non-array argument is caught by the
`!orcidFundingArray || !Array.isArray(orcidFundingArray)` guard and yields
`[]`; otherwise the summaries are mapped left to right, stopping at the
first throwing element. -/
def transformOrcidFundingToUclGrants (arr : JsField (List (Option OrcidFunding))) :
    Except String (List OrcidGrant) :=
  match arr with
  | .missing => .ok []
  | .bad _ => .ok []
  | .val l => l.mapM mapOneSummary

/-- One entry of `activities-summary.fundings.group`; `fundingSummary`
embeds `'funding-summary'`; `none` models an absent field, which `flatMap`
keeps as a single `undefined` element. -/
structure FundingGroup where
  fundingSummary : Option (List OrcidFunding)
deriving DecidableEq

/-- The ORCID profile record, collapsed to the one chain the adapter reads:
`orcidProfile?.['activities-summary']?.fundings?.group`.  `missing` covers
any absent level of the chain, `bad b` a present non-array `group` of JS
truthiness `b`. -/
structure OrcidProfileRec where
  fundingGroups : JsField (List FundingGroup)
deriving DecidableEq

/-- The pure tail of `fetchGrantsFromOrcid` (ucl-api.js lines 185-195):
`group || []`, then `flatMap(group => group['funding-summary'])` (a group
without the field contributes one `undefined` element), then the transform.
A truthy non-array `group` has no `flatMap` and throws. -/
def extractOrcidGrants (p : OrcidProfileRec) : Except String (List OrcidGrant) :=
  match p.fundingGroups with
  | .missing => transformOrcidFundingToUclGrants (.val [])
  | .bad false => transformOrcidFundingToUclGrants (.val [])
  | .bad true => .error "TypeError: fundingGroups.flatMap is not a function"
  | .val gs => transformOrcidFundingToUclGrants
      (.val (gs.flatMap (fun g =>
        match g.fundingSummary with
        | some l => l.map some
        | none => [none])))

/-! ### Grant source selector (ucl-api.js lines 205-216)

`fetchGrants(userId, orcidId)` prefers the ORCID path when `orcidId` is
truthy and `process.env.ORCID_ACCESS_TOKEN` is configured (truthy); any
error from the ORCID attempt falls back to the native fetcher, whose result
— success or failure — is returned as-is.  The two fetches are modelled by
their outcomes (`Except`), the environment flag by a `Bool`; the returned
`Bool` records whether the ORCID path was attempted. -/

def fetchGrants {α : Type} (orcidId : Option String) (hasToken : Bool)
    (orcidOutcome : Except String α) (uclOutcome : Except String α) :
    Bool × Except String α :=
  if (optTruthy orcidId).isSome && hasToken then
    match orcidOutcome with
    | .ok g => (true, .ok g)
    | .error _ => (true, uclOutcome)
  else (false, uclOutcome)

/-! ## Helper lemmas: first-occurrence deduplication -/

theorem mem_dedupAux (l : List String) :
    ∀ (seen : List String) (u : String), u ∈ dedupAux seen l ↔ u ∈ l ∧ u ∉ seen := by
  induction l with
  | nil => simp [dedupAux]
  | cons x xs ih =>
    intro seen u
    by_cases hx : x ∈ seen
    · rw [dedupAux, if_pos hx, ih]
      constructor
      · exact fun ⟨h1, h2⟩ => ⟨.tail _ h1, h2⟩
      · rintro ⟨h1, h2⟩
        cases List.mem_cons.mp h1 with
        | inl he => exact absurd (he ▸ hx) h2
        | inr ht => exact ⟨ht, h2⟩
    · rw [dedupAux, if_neg hx]
      simp only [List.mem_cons, ih, not_or]
      constructor
      · rintro (rfl | ⟨h1, h2, h3⟩)
        · exact ⟨Or.inl rfl, hx⟩
        · exact ⟨Or.inr h1, h3⟩
      · rintro ⟨rfl | h1, h2⟩
        · exact Or.inl rfl
        · by_cases hux : u = x
          · exact Or.inl hux
          · exact Or.inr ⟨h1, hux, h2⟩

theorem nodup_dedupAux (l : List String) :
    ∀ seen : List String, (dedupAux seen l).Nodup := by
  induction l with
  | nil => intro seen; simp [dedupAux]
  | cons x xs ih =>
    intro seen
    by_cases hx : x ∈ seen
    · rw [dedupAux, if_pos hx]; exact ih seen
    · rw [dedupAux, if_neg hx]
      refine List.Nodup.cons ?_ (ih (x :: seen))
      intro hmem
      exact ((mem_dedupAux xs (x :: seen) x).mp hmem).2 (List.mem_cons_self x seen)

theorem sublist_dedupAux (l : List String) :
    ∀ seen : List String, List.Sublist (dedupAux seen l) l := by
  induction l with
  | nil => intro seen; simp [dedupAux]
  | cons x xs ih =>
    intro seen
    by_cases hx : x ∈ seen
    · rw [dedupAux, if_pos hx]; exact (ih seen).cons x
    · rw [dedupAux, if_neg hx]; exact (ih (x :: seen)).cons₂ x

theorem dedupAux_congr (l : List String) :
    ∀ s₁ s₂ : List String, (∀ u, u ∈ s₁ ↔ u ∈ s₂) → dedupAux s₁ l = dedupAux s₂ l := by
  induction l with
  | nil => intro s₁ s₂ _; rfl
  | cons x xs ih =>
    intro s₁ s₂ h
    by_cases hx : x ∈ s₁
    · rw [dedupAux, if_pos hx, dedupAux, if_pos ((h x).mp hx)]
      exact ih s₁ s₂ h
    · rw [dedupAux, if_neg hx, dedupAux, if_neg (fun hm => hx ((h x).mpr hm))]
      refine congrArg (x :: ·) (ih _ _ ?_)
      intro u
      simp only [List.mem_cons]
      exact or_congr Iff.rfl (h u)

/-- The spec's description of the deduplication: scan left to right, keep a
URL only if it has not appeared yet ("duplicates removed, first occurrence
wins").  Written independently of `jsSetDedup`. -/
def specDedup (l : List String) : List String :=
  l.foldl (fun acc u => if u ∈ acc then acc else acc ++ [u]) []

theorem foldl_dedup (l : List String) :
    ∀ acc : List String,
      l.foldl (fun acc u => if u ∈ acc then acc else acc ++ [u]) acc =
        acc ++ dedupAux acc l := by
  induction l with
  | nil => intro acc; simp [dedupAux]
  | cons x xs ih =>
    intro acc
    by_cases hx : x ∈ acc
    · rw [List.foldl_cons, if_pos hx, dedupAux, if_pos hx]
      exact ih acc
    · rw [List.foldl_cons, if_neg hx, dedupAux, if_neg hx, ih (acc ++ [x])]
      rw [dedupAux_congr xs (acc ++ [x]) (x :: acc) (by intro u; simp [or_comm])]
      simp

theorem jsSetDedup_eq_specDedup (l : List String) : jsSetDedup l = specDedup l := by
  rw [specDedup, foldl_dedup l [], jsSetDedup]
  simp

theorem nodup_jsSetDedup (l : List String) : (jsSetDedup l).Nodup :=
  nodup_dedupAux l []

theorem mem_jsSetDedup (l : List String) (u : String) : u ∈ jsSetDedup l ↔ u ∈ l := by
  rw [jsSetDedup, mem_dedupAux]
  simp

theorem sublist_jsSetDedup (l : List String) : List.Sublist (jsSetDedup l) l :=
  sublist_dedupAux l []

/-! ## Claim theorems -/

/-- The publication of the spec's dedup example: `publicUrl = "https://a"`,
`doi = "10.1/x"`, one file URL `"https://a"`, one link URL `"https://b"`. -/
def examplePub : RawPublication :=
  { publicUrl := some "https://a", doi := some "10.1/x",
    files := some [{ url := some "https://a" }],
    links := some [{ url := some "https://b" }] }

/-- C2: for every raw publication record, `publicUrls` is the deduplication
(first occurrence wins) of the URLs collected in precedence order — direct
`publicUrl`, then `https://doi.org/<doi>`, then file URLs, then link URLs
(`collectUrls`): it equals the spec-level left-to-right dedup `specDedup`,
has no duplicates, keeps exactly the collected URLs, preserves their order
(sublist), and on the spec's example evaluates to
`["https://a", "https://doi.org/10.1/x", "https://b"]`. -/
theorem claim_C2 :
    (∀ p : RawPublication,
       (mkPublicUrls p).Nodup ∧
       mkPublicUrls p = specDedup (collectUrls p) ∧
       (∀ u, u ∈ mkPublicUrls p ↔ u ∈ collectUrls p) ∧
       List.Sublist (mkPublicUrls p) (collectUrls p)) ∧
    mkPublicUrls examplePub = ["https://a", "https://doi.org/10.1/x", "https://b"] := by
  refine ⟨fun p => ⟨nodup_jsSetDedup _, jsSetDedup_eq_specDedup _,
    fun u => mem_jsSetDedup _ u, sublist_jsSetDedup _⟩, by decide⟩

/-! ## Helper lemmas: `capitalizeWords` characterisation -/

/-- Spec-level description of one output character: given the previous input
character (`none` at the start of the string), a `\w` character at the start
or right after a whitespace/hyphen is uppercased (after lowercasing);
every other character is simply lowercased. -/
def capSpecAt (p : Option Char) (c : Char) : Char :=
  let lc := c.toLower
  if (match p with
      | none => true
      | some q => isSepChar q.toLower) && isWordChar lc then
    lc.toUpper
  else lc

/-- Spec-level description of the whole output: each character mapped by
`capSpecAt` applied to it and its predecessor. -/
def capListSpec (l : List Char) : List Char :=
  (l.zip (none :: l.map some)).map (fun pc => capSpecAt pc.2 pc.1)

/-- The `atStart` flag of `capChars` as a function of the previous character. -/
def prevFlag : Option Char → Bool
  | none => true
  | some q => isSepChar q.toLower

theorem capChars_eq_spec (l : List Char) :
    ∀ p : Option Char,
      capChars (prevFlag p) l =
        (l.zip (p :: l.map some)).map (fun pc => capSpecAt pc.2 pc.1) := by
  induction l with
  | nil => intro p; rfl
  | cons c cs ih =>
    intro p
    simp only [capChars, List.map_cons, List.zip_cons_cons]
    refine congrArg₂ (· :: ·) ?_ (ih (some c))
    cases p <;> rfl

/-- The output of the name build in `transformApiData` before
capitalization: the raw `firstNameLastName` string when it is a string,
`""` otherwise (`capitalizeWords` maps a missing or falsy value to `''`). -/
def rawNameOf (p : RawProfile) : String :=
  match p.firstNameLastName with
  | .val s => s
  | _ => ""

/-- C9: `capitalizeWords` maps each character as the spec says — the first
`\w` character of each word and of each hyphen-segment (i.e. one at the
start or right after whitespace or a hyphen) is uppercased, every other
character lowercased; `"john-paul smith"` becomes `"John-Paul Smith"`; and
whenever the merge succeeds, the output profile's `name` is
`capitalizeWords` of the raw name (never raw-cased). -/
theorem claim_C9 :
    (∀ s : String, (capitalizeWords s).data = capListSpec s.data) ∧
    capitalizeWords "john-paul smith" = "John-Paul Smith" ∧
    (∀ (p : RawProfile) (pubs : RawPublications) (teach : RawTeaching)
       (grants : RawGrantsData) (doc : ProfileDocument),
       transformApiData p pubs teach grants = .ok doc →
       doc.profile.name = capitalizeWords (rawNameOf p)) := by
  refine ⟨?_, by decide, ?_⟩
  · intro s
    by_cases hs : s = ""
    · subst hs; rfl
    · rw [capitalizeWords, if_neg hs]
      exact capChars_eq_spec s.data none
  · intro p pubs teach grants doc h
    cases hpw : jsArr p.personalWebsites with
    | error e =>
      rw [transformApiData, hpw] at h
      simp [Bind.bind, Except.bind] at h
    | ok ws =>
      cases hfn : p.firstNameLastName with
      | missing =>
        rw [transformApiData, hpw] at h
        simp only [hfn, capWordsField, Bind.bind, Except.bind] at h
        cases hpubs : jsArr pubs.resource with
        | error e => rw [hpubs] at h; simp at h
        | ok ps =>
          cases hgr : jsArr grants.resource with
          | error e => rw [hpubs, hgr] at h; simp at h
          | ok gs =>
            rw [hpubs, hgr] at h
            simp only [pure, Except.pure, Except.ok.injEq] at h
            subst h
            simp [rawNameOf, hfn, capitalizeWords]
      | bad b =>
        cases b with
        | false =>
          rw [transformApiData, hpw] at h
          simp only [hfn, capWordsField, Bind.bind, Except.bind] at h
          cases hpubs : jsArr pubs.resource with
          | error e => rw [hpubs] at h; simp at h
          | ok ps =>
            cases hgr : jsArr grants.resource with
            | error e => rw [hpubs, hgr] at h; simp at h
            | ok gs =>
              rw [hpubs, hgr] at h
              simp only [pure, Except.pure, Except.ok.injEq] at h
              subst h
              simp [rawNameOf, hfn, capitalizeWords]
        | true =>
          rw [transformApiData, hpw] at h
          simp [hfn, capWordsField, Bind.bind, Except.bind] at h
      | val s =>
        rw [transformApiData, hpw] at h
        simp only [hfn, capWordsField, Bind.bind, Except.bind] at h
        cases hpubs : jsArr pubs.resource with
        | error e => rw [hpubs] at h; simp at h
        | ok ps =>
          cases hgr : jsArr grants.resource with
          | error e => rw [hpubs, hgr] at h; simp at h
          | ok gs =>
            rw [hpubs, hgr] at h
            simp only [pure, Except.pure, Except.ok.injEq] at h
            subst h
            simp [rawNameOf, hfn]

/-! ## Helper lemmas: the grant sort -/

/-- The claim-level ordering on adjacent output grants: a dated grant never
follows a null-dated one, and among dated grants end dates are descending. -/
def grantOrdered (a b : NormGrant) : Prop :=
  match endKey a, endKey b with
  | some x, some y => y ≤ x
  | none, some _ => False
  | _, _ => True

theorem grantLE_total (a b : NormGrant) : grantLE a b || grantLE b a := by
  unfold grantLE grantCompare
  generalize endKey a = ka
  generalize endKey b = kb
  rcases ka with _ | x <;> rcases kb with _ | y <;>
    simp only [Bool.or_eq_true, decide_eq_true_eq] <;> omega

theorem grantLE_trans (a b c : NormGrant) :
    grantLE a b → grantLE b c → grantLE a c := by
  unfold grantLE grantCompare
  generalize endKey a = ka
  generalize endKey b = kb
  generalize endKey c = kc
  rcases ka with _ | x <;> rcases kb with _ | y <;> rcases kc with _ | z <;>
    simp only [decide_eq_true_eq] <;> intros <;> first | trivial | omega

theorem pairwise_filter_mutual {α : Type} (R : α → α → Prop) (p : α → Bool)
    (h : ∀ a b, p a = true → p b = true → R a b) :
    ∀ l : List α, (l.filter p).Pairwise R := by
  intro l
  induction l with
  | nil => simp
  | cons x xs ih =>
    by_cases hx : p x = true
    · rw [List.filter_cons_of_pos hx]
      exact List.Pairwise.cons (fun b hb => h x b hx (List.mem_filter.mp hb).2) ih
    · rw [List.filter_cons_of_neg (by simpa using hx)]
      exact ih

/-- Stability of the sort for any class of mutually tied grants: the
subsequence of grants satisfying `p` is exactly the input's, in input
order. -/
theorem sortGrants_filter_eq (p : NormGrant → Bool)
    (hp : ∀ a b, p a = true → p b = true → grantLE a b = true)
    (gs : List NormGrant) :
    (sortGrants gs).filter p = gs.filter p := by
  have hsub : List.Sublist (gs.filter p) (sortGrants gs) :=
    List.sublist_mergeSort grantLE_trans grantLE_total
      (pairwise_filter_mutual (fun a b => grantLE a b = true) p hp gs)
      (List.filter_sublist gs)
  have h2 : List.Sublist ((gs.filter p).filter p) ((sortGrants gs).filter p) :=
    hsub.filter p
  have h3 : (gs.filter p).filter p = gs.filter p :=
    List.filter_eq_self.mpr (fun a ha => (List.mem_filter.mp ha).2)
  rw [h3] at h2
  have h4 : ((sortGrants gs).filter p).length = (gs.filter p).length :=
    ((List.mergeSort_perm gs grantLE).filter p).length_eq
  exact (h2.eq_of_length h4.symm).symm

theorem sortGrants_pairwise (gs : List NormGrant) :
    (sortGrants gs).Pairwise grantOrdered := by
  refine (List.sorted_mergeSort grantLE_trans grantLE_total gs).imp ?_
  intro a b h
  unfold grantLE grantCompare at h
  unfold grantOrdered
  revert h
  generalize endKey a = ka
  generalize endKey b = kb
  rcases ka with _ | x <;> rcases kb with _ | y <;>
    simp only [decide_eq_true_eq] <;> intros <;> first | trivial | omega

/-- The spec's sort example: end years `[2020, null, 2023, null, 2019]`
(the `dateTime` values are the parsed timestamps, increasing with the
year; the two null-dated grants are distinguished by their URLs). -/
def exampleRawGrants : List RawGrant :=
  [ { publicUrl := none, publicUrls := some ["g2020"],
      endDate := some { dateTime := some 2020, year := some 2020 } },
    { publicUrl := none, publicUrls := some ["n1"], endDate := none },
    { publicUrl := none, publicUrls := some ["g2023"],
      endDate := some { dateTime := some 2023, year := some 2023 } },
    { publicUrl := none, publicUrls := some ["n2"], endDate := none },
    { publicUrl := none, publicUrls := some ["g2019"],
      endDate := some { dateTime := some 2019, year := some 2019 } } ]

unseal List.merge List.mergeSort in
/-- C1: the grants list produced by `transformApiData`'s sort step is
ordered by end date descending with null-dated grants after all dated ones
(`Pairwise grantOrdered`); the sort is stable: the subsequence of grants
with any fixed end date, and the subsequence of null-dated grants, appear
in input order; and the spec's example `[2020, null, 2023, null, 2019]`
sorts to `[2023, 2020, 2019, null, null]` with the null-dated grants in
their original relative order. -/
theorem claim_C1 :
    (∀ rs : List RawGrant,
       ((sortGrants (rs.map normalizeGrant)).Pairwise grantOrdered) ∧
       (∀ t : Int,
          (sortGrants (rs.map normalizeGrant)).filter (fun g => endKey g == some t) =
            (rs.map normalizeGrant).filter (fun g => endKey g == some t)) ∧
       ((sortGrants (rs.map normalizeGrant)).filter (fun g => (endKey g).isNone) =
          (rs.map normalizeGrant).filter (fun g => (endKey g).isNone))) ∧
    sortGrants (exampleRawGrants.map normalizeGrant) =
      [{ publicUrl := none, publicUrls := ["g2023"],
         endDate := some { dateTime := some 2023, year := some 2023 } },
       { publicUrl := none, publicUrls := ["g2020"],
         endDate := some { dateTime := some 2020, year := some 2020 } },
       { publicUrl := none, publicUrls := ["g2019"],
         endDate := some { dateTime := some 2019, year := some 2019 } },
       { publicUrl := none, publicUrls := ["n1"], endDate := none },
       { publicUrl := none, publicUrls := ["n2"], endDate := none }] := by
  refine ⟨fun rs => ⟨sortGrants_pairwise _, fun t => ?_, ?_⟩, rfl⟩
  · refine sortGrants_filter_eq _ ?_ _
    intro a b ha hb
    have ha' : endKey a = some t := by simpa using ha
    have hb' : endKey b = some t := by simpa using hb
    unfold grantLE grantCompare
    rw [ha', hb']
    simp
  · refine sortGrants_filter_eq _ ?_ _
    intro a b ha hb
    have ha' : endKey a = none := Option.isNone_iff_eq_none.mp ha
    have hb' : endKey b = none := Option.isNone_iff_eq_none.mp hb
    unfold grantLE grantCompare
    rw [ha', hb']
    simp

/-- C3: grant normalization — a grant carrying only a truthy `publicUrl` gets
`publicUrls = [publicUrl]`; a grant already carrying `publicUrls` keeps it
unchanged; a grant with neither gets `publicUrls = []`.  Every normalized
grant has a `publicUrls` list by construction (the `NormGrant` type). -/
theorem claim_C3 :
    ∀ g : RawGrant,
      (∀ us, g.publicUrls = some us → (normalizeGrant g).publicUrls = us) ∧
      (∀ u, g.publicUrls = none → optTruthy g.publicUrl = some u →
        (normalizeGrant g).publicUrls = [u]) ∧
      (g.publicUrls = none → optTruthy g.publicUrl = none →
        (normalizeGrant g).publicUrls = []) := by
  intro g
  refine ⟨?_, ?_, ?_⟩
  · intro us h
    simp [normalizeGrant, h]
  · intro u h1 h2
    simp [normalizeGrant, h1, h2]
  · intro h1 h2
    simp [normalizeGrant, h1, h2]

theorem claim_C3_witness :
    (normalizeGrant
      { publicUrl := some "https://x", publicUrls := none, endDate := none }).publicUrls
        = ["https://x"] ∧
    (normalizeGrant
      { publicUrl := none, publicUrls := some ["a", "b"], endDate := none }).publicUrls
        = ["a", "b"] ∧
    (normalizeGrant
      { publicUrl := none, publicUrls := none, endDate := none }).publicUrls = [] :=
  ⟨(claim_C3 _).2.1 "https://x" rfl (by decide),
   (claim_C3 _).1 ["a", "b"] rfl,
   (claim_C3 _).2.2 rfl rfl⟩

/-- C4: the grant source selector — the ORCID path is attempted exactly when
the ORCID id is truthy and the access token is configured; when that
precondition fails the native result is returned untouched (success or
failure alike, so a native failure propagates unmasked); when the ORCID
attempt errors the native result is likewise returned as-is; and when it
succeeds its value is returned. -/
theorem claim_C4 :
    ∀ (α : Type) (orcidId : Option String) (hasToken : Bool)
      (orcidOutcome uclOutcome : Except String α),
      ((fetchGrants orcidId hasToken orcidOutcome uclOutcome).1 =
        ((optTruthy orcidId).isSome && hasToken)) ∧
      (((optTruthy orcidId).isSome && hasToken) = false →
        fetchGrants orcidId hasToken orcidOutcome uclOutcome = (false, uclOutcome)) ∧
      (∀ e, ((optTruthy orcidId).isSome && hasToken) = true →
        orcidOutcome = .error e →
        (fetchGrants orcidId hasToken orcidOutcome uclOutcome).2 = uclOutcome) ∧
      (∀ g, ((optTruthy orcidId).isSome && hasToken) = true →
        orcidOutcome = .ok g →
        (fetchGrants orcidId hasToken orcidOutcome uclOutcome).2 = .ok g) := by
  intro α orcidId hasToken o u
  refine ⟨?_, ?_, ?_, ?_⟩
  · by_cases h : ((optTruthy orcidId).isSome && hasToken) = true <;>
      cases o <;> simp [fetchGrants, h]
  · intro h
    simp [fetchGrants, h]
  · intro e h1 h2
    subst h2
    simp [fetchGrants, h1]
  · intro g h1 h2
    subst h2
    simp [fetchGrants, h1]

theorem claim_C4_witness :
    ((optTruthy (some "0000-0002-1825-0097")).isSome && true) = true ∧
    (fetchGrants (some "0000-0002-1825-0097") true
      (Except.error "network failure")
      (Except.ok ([] : List NormGrant))).2 = Except.ok [] :=
  ⟨by decide,
   (claim_C4 _ _ _ _ _).2.2.1 "network failure" (by decide) rfl⟩

/-! ### C5: does `transformApiData` ever throw? -/

theorem jsArr_ok_of_ne_bad {α : Type} (f : JsField (List α))
    (h : f ≠ .bad true) : ∃ l, jsArr f = .ok l := by
  cases f with
  | missing => exact ⟨[], rfl⟩
  | bad b =>
    cases b with
    | false => exact ⟨[], rfl⟩
    | true => exact absurd rfl h
  | val l => exact ⟨l, rfl⟩

theorem capWordsField_ok_of_ne_bad (f : JsField String)
    (h : f ≠ .bad true) : ∃ s, capWordsField f = .ok s := by
  cases f with
  | missing => exact ⟨"", rfl⟩
  | bad b =>
    cases b with
    | false => exact ⟨"", rfl⟩
    | true => exact absurd rfl h
  | val s => exact ⟨capitalizeWords s, rfl⟩

/-- The counterexample profile: `personalWebsites` present with a truthy
non-array value (e.g. the number `5`); every other field absent. -/
def cexProfile : RawProfile :=
  { firstNameLastName := .missing, title := none, positions := none,
    personalWebsites := .bad true, tabSummaryTeachingActivities := none,
    tags := none, tabSummaryGrants := none, discoveryUrlId := none,
    elementsUserProfileUrl := none, orcid := none }

/-- C5 fails as stated: a `personalWebsites` field of unexpected (truthy,
non-array) shape does not degrade to a default — `.find` is not a function
on it, and the merge aborts with a `TypeError` instead of producing a
document. -/
theorem claim_C5_counterexample :
    (transformApiData cexProfile ⟨.missing⟩ ⟨none⟩ ⟨.missing⟩).isOk = false := rfl

/-- C5 (amended): the merge never throws as long as no field on which an
array or string method is invoked (`personalWebsites`,
`firstNameLastName`, a `resource`) is present with an unexpected truthy
shape; in particular every *absent* optional nested field degrades to a
default value rather than aborting the merge. -/
theorem claim_C5 :
    ∀ (p : RawProfile) (pubs : RawPublications) (teach : RawTeaching)
      (grants : RawGrantsData),
      p.personalWebsites ≠ .bad true →
      p.firstNameLastName ≠ .bad true →
      pubs.resource ≠ .bad true →
      grants.resource ≠ .bad true →
      (transformApiData p pubs teach grants).isOk = true := by
  intro p pubs teach grants h1 h2 h3 h4
  obtain ⟨ws, hws⟩ := jsArr_ok_of_ne_bad p.personalWebsites h1
  obtain ⟨nm, hnm⟩ := capWordsField_ok_of_ne_bad p.firstNameLastName h2
  obtain ⟨ps, hps⟩ := jsArr_ok_of_ne_bad pubs.resource h3
  obtain ⟨gs, hgs⟩ := jsArr_ok_of_ne_bad grants.resource h4
  rw [transformApiData, hws]
  simp only [Bind.bind, Except.bind, hnm, hps, hgs, pure, Except.pure]
  rfl

/-- The all-default inputs: every optional field absent. -/
def emptyProfile : RawProfile :=
  { firstNameLastName := .missing, title := none, positions := none,
    personalWebsites := .missing, tabSummaryTeachingActivities := none,
    tags := none, tabSummaryGrants := none, discoveryUrlId := none,
    elementsUserProfileUrl := none, orcid := none }

theorem claim_C5_witness :
    (transformApiData emptyProfile ⟨.missing⟩ ⟨none⟩ ⟨.missing⟩).isOk = true :=
  claim_C5 emptyProfile ⟨.missing⟩ ⟨none⟩ ⟨.missing⟩
    (by decide) (by decide) (by decide) (by decide)

/-- C6: `constructDate` — an absent date object, or one without a (truthy)
year, yields `null`; one with a year (month/day defaulting to the `'01'`
segment, i.e. numeric 1) and in-range components yields the ISO-8601
timestamp at (UTC = deployment-local) midnight of that year-month-day and
the plain integer year; on the instance year 2020, month 5, no day, the
timestamp is exactly `"2020-05-01T00:00:00.000Z"`. -/
theorem claim_C6 :
    (constructDate none = .ok none) ∧
    (∀ d : OrcidDate, d.year = none → constructDate (some d) = .ok none) ∧
    (∀ (d : OrcidDate) (y : Nat),
       d.year = some ⟨y⟩ → y ≠ 0 →
       isoValid y (partOr1 d.month) (partOr1 d.day) = true →
       constructDate (some d) =
         .ok (some { dateTime := isoMidnight y (partOr1 d.month) (partOr1 d.day),
                     year := y })) ∧
    (constructDate (some { year := some ⟨2020⟩, month := some ⟨5⟩, day := none }) =
      .ok (some { dateTime := "2020-05-01T00:00:00.000Z", year := 2020 })) := by
  refine ⟨rfl, ?_, ?_, rfl⟩
  · intro d h
    simp [constructDate, h]
  · intro d y h1 h2 h3
    simp [constructDate, h1, h2, h3]

theorem claim_C6_witness :
    constructDate (some { year := some ⟨2023⟩, month := none, day := some ⟨7⟩ }) =
      .ok (some { dateTime := isoMidnight 2023 1 7, year := 2023 }) :=
  claim_C6.2.2.1 _ 2023 rfl (by decide) (by decide)

/-- C7 fails as stated: a group *object* that lacks the `funding-summary`
field does not yield an empty grants list — `flatMap` keeps the resulting
`undefined` as an element, and `funding['start-date']` on it throws a
`TypeError` inside the transform. -/
theorem claim_C7_counterexample :
    (extractOrcidGrants ⟨.val [⟨none⟩]⟩).isOk = false := rfl

/-- C7 (amended): a missing or falsy `activities-summary.fundings.group`
chain, an empty group list, and a missing/falsy/non-array argument to the
transform all yield an empty grants list, not an error; but a group object
that lacks the `funding-summary` field makes the transform throw. -/
theorem claim_C7 :
    extractOrcidGrants ⟨.missing⟩ = .ok [] ∧
    extractOrcidGrants ⟨.bad false⟩ = .ok [] ∧
    extractOrcidGrants ⟨.val []⟩ = .ok [] ∧
    transformOrcidFundingToUclGrants .missing = .ok [] ∧
    transformOrcidFundingToUclGrants (.bad true) = .ok [] ∧
    transformOrcidFundingToUclGrants (.bad false) = .ok [] ∧
    (extractOrcidGrants ⟨.val [⟨none⟩]⟩).isOk = false :=
  ⟨rfl, rfl, rfl, rfl, rfl, rfl, rfl⟩

/-! ### C8: flatMap semantics of the group extraction -/

theorem mapM_ok_length {α β : Type} (f : α → Except String β) :
    ∀ (l : List α) (res : List β), l.mapM f = .ok res → res.length = l.length := by
  intro l
  induction l with
  | nil =>
    intro res h
    simp only [List.mapM_nil, pure, Except.pure, Except.ok.injEq] at h
    rw [← h]
    rfl
  | cons a l ih =>
    intro res h
    rw [List.mapM_cons] at h
    cases hfa : f a with
    | error e =>
      rw [hfa] at h
      simp [Bind.bind, Except.bind] at h
    | ok b =>
      cases hml : l.mapM f with
      | error e =>
        rw [hfa, hml] at h
        simp [Bind.bind, Except.bind] at h
      | ok bs =>
        rw [hfa, hml] at h
        simp only [Bind.bind, Except.bind, pure, Except.pure, Except.ok.injEq] at h
        rw [← h]
        simp [ih bs hml]

/-- A funding summary with every optional field absent. -/
def emptyFunding : OrcidFunding :=
  { title := none, organization := none, startDate := none, endDate := none,
    url := none, externalIds := none }

/-- The grant `emptyFunding` transforms to. -/
def placeholderGrant : OrcidGrant :=
  { title := "No Title Available", fundingBody := "Funder Not Available",
    startDate := none, endDate := none, publicUrls := [] }

/-- C8: for a group list in which every group carries a `funding-summary`
list, the extraction flattens all summaries and maps each to one grant, so
a successful result has as many grants as there are summaries in total
(flatMap semantics); in particular two groups of one summary each produce
exactly two transformed grants. -/
theorem claim_C8 :
    (∀ (gs : List (List OrcidFunding)) (res : List OrcidGrant),
       extractOrcidGrants ⟨.val (gs.map (fun l => ⟨some l⟩))⟩ = .ok res →
       res.length = (gs.map List.length).sum) ∧
    extractOrcidGrants ⟨.val [⟨some [emptyFunding]⟩, ⟨some [emptyFunding]⟩]⟩ =
      .ok [placeholderGrant, placeholderGrant] := by
  refine ⟨?_, rfl⟩
  intro gs res h
  have h1 : extractOrcidGrants ⟨.val (gs.map (fun l => ⟨some l⟩))⟩ =
      ((gs.map (fun l => (⟨some l⟩ : FundingGroup))).flatMap (fun g =>
        match g.fundingSummary with
        | some l => l.map some
        | none => [none])).mapM mapOneSummary := rfl
  rw [List.flatMap_map] at h1
  simp only [Function.comp] at h1
  rw [h1] at h
  have h2 := mapM_ok_length mapOneSummary _ res h
  rw [h2, List.flatMap_def, List.length_flatten, List.map_map]
  have hc : (List.length ∘ fun a : List OrcidFunding => List.map some a) =
      List.length := by
    funext a
    simp
  rw [hc]

theorem claim_C8_witness :
    ([placeholderGrant, placeholderGrant] : List OrcidGrant).length =
      (([[emptyFunding], [emptyFunding]] : List (List OrcidFunding)).map
        List.length).sum :=
  claim_C8.1 [[emptyFunding], [emptyFunding]] [placeholderGrant, placeholderGrant] rfl

/-! ### C10: placeholder title and funder -/

theorem optTruthy_ne_empty (o : Option String) (s : String)
    (h : optTruthy o = some s) : s ≠ "" := by
  cases o with
  | none => simp [optTruthy] at h
  | some t =>
    by_cases ht : t = ""
    · simp [optTruthy, ht] at h
    · rw [optTruthy, if_neg ht] at h
      cases h
      exact ht

/-- C10: every grant produced by the per-summary ORCID transform has a
non-empty `title` and `fundingBody`: a summary whose title chain yields no
truthy value gets exactly `"No Title Available"`, one without a truthy
organization name gets exactly `"Funder Not Available"`, and both fields
are never the empty string (a fortiori never null — they are total `String`
fields of the output type). -/
theorem claim_C10 :
    ∀ (f : OrcidFunding) (g : OrcidGrant),
      transformOneFunding f = .ok g →
      (titleChain f = none → g.title = "No Title Available") ∧
      (orgName f = none → g.fundingBody = "Funder Not Available") ∧
      g.title ≠ "" ∧ g.fundingBody ≠ "" := by
  intro f g h
  rw [transformOneFunding] at h
  cases hsd : constructDate f.startDate with
  | error e =>
    rw [hsd] at h
    simp [Bind.bind, Except.bind] at h
  | ok sd =>
    cases hed : constructDate f.endDate with
    | error e =>
      rw [hsd, hed] at h
      simp [Bind.bind, Except.bind] at h
    | ok ed =>
      rw [hsd, hed] at h
      simp only [Bind.bind, Except.bind, pure, Except.pure, Except.ok.injEq] at h
      rw [← h]
      refine ⟨fun ht => by simp [ht], fun ho => by simp [ho], ?_, ?_⟩
      · cases htc : titleChain f with
        | none => simp [htc]
        | some t =>
          simp only [htc, Option.getD_some]
          exact optTruthy_ne_empty _ t htc
      · cases hon : orgName f with
        | none => simp [hon]
        | some t =>
          simp only [hon, Option.getD_some]
          exact optTruthy_ne_empty _ t hon

/-- The document `transformApiData` produces from the all-default inputs. -/
def emptyDoc : ProfileDocument :=
  { profile := { name := "", prefixTitle := "", title := "", affiliation := "",
                 education_info := "", research_interests := [],
                 research_info := "",
                 meta := { discoveryUrlId := none, profileURL := none,
                           orcid := none, orcid_uri := none,
                           linked_in := none, twitter := none } },
    publications := [], grants := [], teaching := [] }

unseal List.merge List.mergeSort in
theorem claim_C9_witness :
    emptyDoc.profile.name = capitalizeWords (rawNameOf emptyProfile) :=
  claim_C9.2.2 emptyProfile ⟨.missing⟩ ⟨none⟩ ⟨.missing⟩ emptyDoc rfl

theorem claim_C10_witness :
    placeholderGrant.title = "No Title Available" ∧
    placeholderGrant.fundingBody = "Funder Not Available" :=
  ⟨(claim_C10 emptyFunding placeholderGrant rfl).1 rfl,
   (claim_C10 emptyFunding placeholderGrant rfl).2.1 rfl⟩

end SocialAI
